import Mathlib

/-!
Verification development for the NYC Taxi ETL pipeline
(`src/jobs/etl/nyc_taxi_etl.py`).

The PySpark job is shallowly embedded over lists of records:

* a CSV row becomes a `RawRecord` (nullable columns are `Option` values;
  the two timestamp columns are the raw strings);
* `withDerived` embeds the `to_timestamp` / `trip_minutes` `withColumn`
  chain (Spark's `to_timestamp` returns null on parse failure, embedded
  as `Option Timestamp`; `unix_timestamp` subtraction divided by `60.0`
  is embedded over `ℚ`);
* `cleanStage` embeds the five `.filter` calls (Spark's three-valued
  comparison drops a row when the compared column is null, embedded by
  the `opt*` predicates returning `false` on `none`);
* `enrichRecord` embeds the `trip_date` / `pickup_hour` / `is_weekend`
  `withColumn` calls;
* `aggStage` embeds `groupBy("trip_date").agg(...).orderBy(desc)`;
* `runPipeline` embeds `main`'s LOAD branch, including the Python
  truthiness test `args.output_mode == "bigquery" and args.bq_table`.
-/

/-- A parsed calendar timestamp, the embedding of a Spark `TimestampType`
value produced by `to_timestamp`. -/
structure Timestamp where
  year : Nat
  month : Nat
  day : Nat
  hour : Nat
  minute : Nat
  second : Nat
deriving DecidableEq, Repr

/-- Value of a decimal digit character, `none` on a non-digit. -/
def digitVal (c : Char) : Option Nat :=
  if c.isDigit then some (c.toNat - 48) else none

/-- Two decimal digit characters as a number. -/
def parse2 (a b : Char) : Option Nat :=
  match digitVal a, digitVal b with
  | some x, some y => some (x * 10 + y)
  | _, _ => none

/-- Four decimal digit characters as a number. -/
def parse4 (a b c d : Char) : Option Nat :=
  match parse2 a b, parse2 c d with
  | some x, some y => some (x * 100 + y)
  | _, _ => none

/-- Gregorian leap-year test. -/
def isLeapYear (y : Nat) : Bool :=
  (y % 4 == 0 && y % 100 != 0) || y % 400 == 0

/-- Number of days in a month of the Gregorian calendar. -/
def daysInMonth (y m : Nat) : Nat :=
  if m = 2 then (if isLeapYear y then 29 else 28)
  else if m = 4 ∨ m = 6 ∨ m = 9 ∨ m = 11 then 30 else 31

/-- Embedding of Spark's `to_timestamp` for its default
`yyyy-MM-dd HH:mm:ss` pattern: a string that is not a valid timestamp of
that shape yields `none` (Spark yields null) instead of failing the run. -/
def parseTimestamp (s : String) : Option Timestamp :=
  match s.data with
  | [y1, y2, y3, y4, c1, m1, m2, c2, d1, d2, c3, h1, h2, c4, n1, n2, c5, s1, s2] =>
    if c1 = '-' ∧ c2 = '-' ∧ c3 = ' ' ∧ c4 = ':' ∧ c5 = ':' then
      match parse4 y1 y2 y3 y4, parse2 m1 m2, parse2 d1 d2,
            parse2 h1 h2, parse2 n1 n2, parse2 s1 s2 with
      | some y, some mo, some da, some ho, some mi, some se =>
        if 1 ≤ mo ∧ mo ≤ 12 ∧ 1 ≤ da ∧ da ≤ daysInMonth y mo ∧
            ho ≤ 23 ∧ mi ≤ 59 ∧ se ≤ 59 then
          some ⟨y, mo, da, ho, mi, se⟩
        else none
      | _, _, _, _, _, _ => none
    else none
  | _ => none

/-- Days since 1970-01-01 of a civil date (the standard civil-from-days
inverse used by timestamp libraries; integer division truncates toward
zero as in Lean's `Int` division). -/
def daysFromCivil (y : Int) (m d : Nat) : Int :=
  let yAdj : Int := if m ≤ 2 then y - 1 else y
  let era : Int := (if 0 ≤ yAdj then yAdj else yAdj - 399) / 400
  let yoe : Int := yAdj - era * 400
  let mp : Nat := (m + 9) % 12
  let doy : Int := (153 * mp + 2) / 5 + d - 1
  let doe : Int := yoe * 365 + yoe / 4 - yoe / 100 + doy
  era * 146097 + doe - 719468

/-- Embedding of Spark's `unix_timestamp`: seconds since the epoch. -/
def unixTimestamp (t : Timestamp) : Int :=
  daysFromCivil t.year t.month t.day * 86400 +
    t.hour * 3600 + t.minute * 60 + t.second

/-- A raw CSV row as read by the Reader (`spark.read.csv` with header and
inferred schema). The timestamp columns are still strings; any column may
be null. -/
structure RawRecord where
  tpep_pickup_datetime : Option String
  tpep_dropoff_datetime : Option String
  fare_amount : Option ℚ
  trip_distance : Option ℚ
  passenger_count : Option ℚ
deriving DecidableEq, Repr

/-- `to_timestamp` lifted to a nullable column. -/
def toTimestampOpt (s : Option String) : Option Timestamp :=
  s.bind parseTimestamp

/-- A record after the first three `withColumn` calls: parsed pickup and
dropoff timestamps and the derived `trip_minutes` column. -/
structure ParsedRecord where
  tpep_pickup_datetime : Option Timestamp
  tpep_dropoff_datetime : Option Timestamp
  fare_amount : Option ℚ
  trip_distance : Option ℚ
  passenger_count : Option ℚ
  trip_minutes : Option ℚ
deriving DecidableEq, Repr

/-- The `withColumn` chain before the filters: parse both timestamp
columns, then derive
`trip_minutes = (unix_timestamp(dropoff) - unix_timestamp(pickup)) / 60.0`
(null if either timestamp is null). -/
def withDerived (r : RawRecord) : ParsedRecord :=
  let p := toTimestampOpt r.tpep_pickup_datetime
  let d := toTimestampOpt r.tpep_dropoff_datetime
  { tpep_pickup_datetime := p
    tpep_dropoff_datetime := d
    fare_amount := r.fare_amount
    trip_distance := r.trip_distance
    passenger_count := r.passenger_count
    trip_minutes :=
      match p, d with
      | some pt, some dt =>
        some (((unixTimestamp dt - unixTimestamp pt : ℤ) : ℚ) / 60)
      | _, _ => none }

/-- Spark's `col > 0` under three-valued logic: null compares to null,
which the filter treats as false. -/
def optPos (x : Option ℚ) : Bool :=
  match x with
  | some v => decide (0 < v)
  | none => false

/-- Spark's `col < c` under three-valued logic. -/
def optLtC (x : Option ℚ) (c : ℚ) : Bool :=
  match x with
  | some v => decide (v < c)
  | none => false

/-- Filter `col("fare_amount") > 0`. -/
def filterFare (r : ParsedRecord) : Bool := optPos r.fare_amount

/-- Filter `col("trip_minutes") > 0`. -/
def filterMinPos (r : ParsedRecord) : Bool := optPos r.trip_minutes

/-- Filter `col("trip_minutes") < 180`. -/
def filterMinLt (r : ParsedRecord) : Bool := optLtC r.trip_minutes 180

/-- Filter `col("passenger_count").isNotNull()`. -/
def filterPCNotNull (r : ParsedRecord) : Bool := r.passenger_count.isSome

/-- Filter `col("passenger_count") > 0`. -/
def filterPCPos (r : ParsedRecord) : Bool := optPos r.passenger_count

/-- The five `.filter` predicates of the Cleaner, in source order. -/
def cleanFilters : List (ParsedRecord → Bool) :=
  [filterFare, filterMinPos, filterMinLt, filterPCNotNull, filterPCPos]

/-- Chain of `.filter` calls applied left to right. -/
def applyFilters (ps : List (α → Bool)) (l : List α) : List α :=
  ps.foldl (fun acc p => acc.filter p) l

/-- The Cleaner: the five filters of the source, in source order. -/
def cleanStage (l : List ParsedRecord) : List ParsedRecord :=
  applyFilters cleanFilters l

/-- Two-digit zero-padded rendering (the `MM` / `dd` format fields). -/
def digits2 (n : Nat) : List Char :=
  if n < 100 then [Nat.digitChar (n / 10), Nat.digitChar (n % 10)]
  else (Nat.repr n).data

/-- Four-digit zero-padded rendering (the `yyyy` format field). -/
def digits4 (n : Nat) : List Char :=
  if n < 10000 then
    [Nat.digitChar (n / 1000 % 10), Nat.digitChar (n / 100 % 10),
     Nat.digitChar (n / 10 % 10), Nat.digitChar (n % 10)]
  else (Nat.repr n).data

/-- Embedding of `date_format(ts, "yyyy-MM-dd")`. -/
def dateFormat (t : Timestamp) : String :=
  String.mk (digits4 t.year ++ '-' :: (digits2 t.month ++ '-' :: digits2 t.day))

/-- Embedding of Spark SQL `substr(pos, len)` (1-based, character
counted). -/
def substrSQL (s : String) (pos len : Nat) : String :=
  String.mk ((s.data.drop (pos - 1)).take len)

/-- Embedding of
`when(col("trip_date").substr(1, 1).isin(["6", "7"]), 1).otherwise(0)`:
on a null `trip_date` the condition is null and the `otherwise` branch
yields 0. -/
def isWeekendFlag (td : Option String) : Int :=
  match td with
  | some s => if substrSQL s 1 1 = "6" ∨ substrSQL s 1 1 = "7" then 1 else 0
  | none => 0

/-- A record after the feature-deriving `withColumn` calls. -/
structure EnrichedRecord where
  tpep_pickup_datetime : Option Timestamp
  tpep_dropoff_datetime : Option Timestamp
  fare_amount : Option ℚ
  trip_distance : Option ℚ
  passenger_count : Option ℚ
  trip_minutes : Option ℚ
  trip_date : Option String
  pickup_hour : Option Int
  is_weekend : Int
deriving DecidableEq, Repr

/-- The Feature Deriver: `trip_date`, `pickup_hour` and `is_weekend`
columns added after the filters; `trip_minutes` is the column already
computed before the filters, carried through unchanged. -/
def enrichRecord (r : ParsedRecord) : EnrichedRecord :=
  let td := r.tpep_pickup_datetime.map dateFormat
  { tpep_pickup_datetime := r.tpep_pickup_datetime
    tpep_dropoff_datetime := r.tpep_dropoff_datetime
    fare_amount := r.fare_amount
    trip_distance := r.trip_distance
    passenger_count := r.passenger_count
    trip_minutes := r.trip_minutes
    trip_date := td
    pickup_hour := r.tpep_pickup_datetime.map (fun t => (t.hour : Int))
    is_weekend := isWeekendFlag td }

/-- The TRANSFORM block of `main`: parse and derive, filter, enrich. -/
def etlTransform (raw : List RawRecord) : List EnrichedRecord :=
  (cleanStage (raw.map withDerived)).map enrichRecord

/-- Spark's `avg` aggregate: arithmetic mean of the non-null values,
null when every value is null. -/
def avgOpt (xs : List (Option ℚ)) : Option ℚ :=
  let vs := xs.filterMap id
  if vs.isEmpty then none else some (vs.sum / (vs.length : ℚ))

/-- One row of the `groupBy("trip_date").agg(...)` result. -/
structure AggRow where
  trip_date : Option String
  avg_fare : Option ℚ
  avg_duration_minutes : Option ℚ
  avg_distance : Option ℚ
  trip_count : Nat
  avg_passengers : Option ℚ
deriving DecidableEq, Repr

/-- The aggregate row for one `trip_date` group. -/
def mkAggRow (k : Option String) (grp : List EnrichedRecord) : AggRow :=
  { trip_date := k
    avg_fare := avgOpt (grp.map (fun r => r.fare_amount))
    avg_duration_minutes := avgOpt (grp.map (fun r => r.trip_minutes))
    avg_distance := avgOpt (grp.map (fun r => r.trip_distance))
    trip_count := grp.length
    avg_passengers := avgOpt (grp.map (fun r => r.passenger_count)) }

/-- Lexicographic order on character lists by code point, the order
Spark uses to compare string columns. -/
def charListLe : List Char → List Char → Bool
  | [], _ => true
  | _ :: _, [] => false
  | a :: as, b :: bs =>
    if a = b then charListLe as bs else decide (a < b)

/-- Lexicographic string comparison by code point. -/
def strLe (a b : String) : Bool := charListLe a.data b.data

/-- Descending `orderBy(col("trip_date").desc())` comparison on the
nullable group key (Spark places nulls last in a descending sort). -/
def tripDateDescLe (a b : Option String) : Bool :=
  match a, b with
  | some x, some y => strLe y x
  | some _, none => true
  | none, some _ => false
  | none, none => true

/-- The distinct `trip_date` group keys of the enriched set. -/
def groupKeys (l : List EnrichedRecord) : List (Option String) :=
  (l.map (fun r => r.trip_date)).dedup

/-- The row order realizing `orderBy(col("trip_date").desc())`. -/
def aggRowLe (a b : AggRow) : Prop :=
  tripDateDescLe a.trip_date b.trip_date = true

instance : DecidableRel aggRowLe := fun a b =>
  instDecidableEqBool (tripDateDescLe a.trip_date b.trip_date) true

/-- The lexicographic comparison is total. -/
theorem charListLe_total : ∀ as bs, charListLe as bs = true ∨ charListLe bs as = true
  | [], _ => Or.inl rfl
  | _ :: _, [] => Or.inr rfl
  | a :: as, b :: bs => by
    by_cases hab : a = b
    · subst hab
      simpa [charListLe] using charListLe_total as bs
    · rcases lt_trichotomy a b with h | h | h
      · exact Or.inl (by simp [charListLe, hab, h])
      · exact absurd h hab
      · have hba : b ≠ a := fun e => hab e.symm
        exact Or.inr (by simp [charListLe, hba, h])

/-- The lexicographic comparison is transitive. -/
theorem charListLe_trans :
    ∀ as bs cs, charListLe as bs = true → charListLe bs cs = true →
      charListLe as cs = true
  | [], _, _, _, _ => rfl
  | _ :: _, [], _, h1, _ => absurd h1 (by simp [charListLe])
  | _ :: _, _ :: _, [], _, h2 => absurd h2 (by simp [charListLe])
  | a :: as, b :: bs, c :: cs, h1, h2 => by
    simp only [charListLe] at h1 h2 ⊢
    by_cases hab : a = b <;> by_cases hbc : b = c
    · subst hab; subst hbc
      rw [if_pos rfl] at h1 h2 ⊢
      exact charListLe_trans as bs cs h1 h2
    · subst hab
      rw [if_neg hbc] at h2 ⊢
      exact h2
    · subst hbc
      rw [if_neg hab] at h1 ⊢
      exact h1
    · rw [if_neg hab] at h1
      rw [if_neg hbc] at h2
      have hac : a < c := lt_trans (of_decide_eq_true h1) (of_decide_eq_true h2)
      rw [if_neg (ne_of_lt hac)]
      exact decide_eq_true hac

instance : IsTotal AggRow aggRowLe where
  total a b := by
    unfold aggRowLe tripDateDescLe
    rcases a.trip_date with _ | x <;> rcases b.trip_date with _ | y
    · exact Or.inl rfl
    · exact Or.inr rfl
    · exact Or.inl rfl
    · exact charListLe_total y.data x.data

instance : IsTrans AggRow aggRowLe where
  trans a b c := by
    unfold aggRowLe tripDateDescLe
    rcases a.trip_date with _ | x <;> rcases b.trip_date with _ | y <;>
      rcases c.trip_date with _ | z
    all_goals first
      | exact fun _ _ => rfl
      | exact fun h _ => Bool.noConfusion h
      | exact fun _ h => Bool.noConfusion h
      | exact fun h1 h2 => charListLe_trans z.data y.data x.data h2 h1

/-- The Aggregator: group by `trip_date`, compute the five aggregates,
order by `trip_date` descending. -/
def aggStage (l : List EnrichedRecord) : List AggRow :=
  List.insertionSort aggRowLe
    ((groupKeys l).map
      (fun k => mkAggRow k (l.filter (fun r => decide (r.trip_date = k)))))

/-- The whole EXTRACT-less data path of `main`: raw rows to aggregate
rows. -/
def pipelineAgg (raw : List RawRecord) : List AggRow :=
  aggStage (etlTransform raw)

/-- The CLI arguments of `parse_args`: `--bq_table` is optional with
default `None`, and no validation ties it to `--output_mode`. -/
structure Args where
  input_path : String
  output_path : String
  output_mode : String
  bq_table : Option String
deriving DecidableEq, Repr

/-- Python truthiness of `args.bq_table`: `None` and the empty string are
falsy. -/
def pyTruthy (s : Option String) : Bool :=
  match s with
  | none => false
  | some t => !t.isEmpty

/-- The write the LOAD block performs. -/
inductive WriteAction where
  | bigqueryWrite (table : String) (rows : List AggRow)
  | parquetWrite (path : String) (rows : List AggRow)
deriving DecidableEq, Repr

/-- `main` after argument parsing: compute the aggregates from the input,
then branch on `if args.output_mode == "bigquery" and args.bq_table`.
The result type allows a configuration failure (`Except`), but the source
has no validation, so every configuration reaches a write. -/
def runPipeline (args : Args) (raw : List RawRecord) : Except String WriteAction :=
  let agg := pipelineAgg raw
  if args.output_mode == "bigquery" && pyTruthy args.bq_table then
    .ok (.bigqueryWrite (args.bq_table.getD "") agg)
  else
    .ok (.parquetWrite args.output_path agg)

/-! Concrete inputs used to instantiate the theorems below. -/

/-- A raw row with every column present. -/
def mkRaw (pu du : String) (fare dist pc : ℚ) : RawRecord :=
  { tpep_pickup_datetime := some pu
    tpep_dropoff_datetime := some du
    fare_amount := some fare
    trip_distance := some dist
    passenger_count := some pc }

/-- The spec's aggregation scenario: three otherwise-valid records on
2024-01-01 with fares 10, 20, 30. -/
def scenarioRaw : List RawRecord :=
  [mkRaw "2024-01-01 10:00:00" "2024-01-01 10:30:00" 10 1 1,
   mkRaw "2024-01-01 11:00:00" "2024-01-01 11:30:00" 20 2 1,
   mkRaw "2024-01-01 12:00:00" "2024-01-01 12:30:00" 30 3 1]

/-- Valid records on three distinct dates, given out of date order. -/
def threeDates : List RawRecord :=
  [mkRaw "2024-01-02 10:00:00" "2024-01-02 10:30:00" 10 1 1,
   mkRaw "2024-01-03 11:00:00" "2024-01-03 11:30:00" 20 2 1,
   mkRaw "2024-01-01 12:00:00" "2024-01-01 12:30:00" 30 3 1]

/-- Records on one date whose distances are null, negative and zero,
with every other predicate passing. -/
def distScenario : List RawRecord :=
  [{ tpep_pickup_datetime := some "2024-01-01 10:00:00"
     tpep_dropoff_datetime := some "2024-01-01 10:30:00"
     fare_amount := some 10
     trip_distance := none
     passenger_count := some 1 },
   mkRaw "2024-01-01 11:00:00" "2024-01-01 11:30:00" 20 (-4) 1,
   mkRaw "2024-01-01 12:00:00" "2024-01-01 12:30:00" 30 0 1]

/-- A raw row whose pickup timestamp does not parse. -/
def badPickupRaw : RawRecord :=
  { tpep_pickup_datetime := some "not-a-timestamp"
    tpep_dropoff_datetime := some "2024-01-01 10:30:00"
    fare_amount := some 10
    trip_distance := some 1
    passenger_count := some 1 }

/-- A configuration requesting warehouse-table mode without a table
identifier. -/
def cfgNoTable : Args :=
  { input_path := "gs://raw"
    output_path := "gs://out"
    output_mode := "bigquery"
    bq_table := none }

/-- The five Cleaner predicates with the first two swapped. -/
def swappedFilters : List (ParsedRecord → Bool) :=
  [filterMinPos, filterFare, filterMinLt, filterPCNotNull, filterPCPos]

/-! Helper lemmas shared by the claim theorems. -/

/-- A chain of `.filter` calls keeps exactly the rows passing the
conjunction of all the predicates. -/
theorem applyFilters_eq_filter (ps : List (α → Bool)) (l : List α) :
    applyFilters ps l = l.filter (fun a => ps.all (fun p => p a)) := by
  induction ps generalizing l with
  | nil => simp [applyFilters]
  | cons p ps ih =>
    show applyFilters ps (l.filter p) = _
    rw [ih, List.filter_filter]
    simp [List.all_cons, Bool.and_comm]

/-- Characterization of the null-rejecting `> 0` comparison. -/
theorem optPos_iff (x : Option ℚ) : optPos x = true ↔ ∃ v, x = some v ∧ 0 < v := by
  cases x <;> simp [optPos]

/-- Characterization of the null-rejecting `< c` comparison. -/
theorem optLtC_iff (x : Option ℚ) (c : ℚ) :
    optLtC x c = true ↔ ∃ v, x = some v ∧ v < c := by
  cases x <;> simp [optLtC]

/-- Membership in the Cleaner output: in the input and passing all five
filters. -/
theorem mem_cleanStage (l : List ParsedRecord) (r : ParsedRecord) :
    r ∈ cleanStage l ↔ r ∈ l ∧
      filterFare r = true ∧ filterMinPos r = true ∧ filterMinLt r = true ∧
      filterPCNotNull r = true ∧ filterPCPos r = true := by
  rw [cleanStage, applyFilters_eq_filter, List.mem_filter]
  simp [cleanFilters, and_assoc]

/-- The executable lexicographic comparison agrees with the list order
underlying the library's string order. -/
theorem charListLe_iff_not_lt : ∀ as bs : List Char, charListLe as bs = true ↔ ¬ bs < as
  | [], bs => ⟨fun _ h => (nomatch h), fun _ => rfl⟩
  | a :: as, [] => ⟨fun h => Bool.noConfusion h, fun h => absurd List.Lex.nil h⟩
  | a :: as, b :: bs => by
    simp only [charListLe]
    by_cases hab : a = b
    · subst hab
      rw [if_pos rfl, charListLe_iff_not_lt as bs]
      constructor
      · intro h hlt
        cases hlt with
        | cons h3 => exact h h3
        | rel h1 => exact absurd h1 (lt_irrefl a)
      · intro h hlt
        exact h (List.Lex.cons hlt)
    · rw [if_neg hab, decide_eq_true_eq]
      constructor
      · intro h hlt
        cases hlt with
        | cons h3 => exact absurd rfl hab
        | rel h1 => exact absurd h (lt_asymm h1)
      · intro h
        rcases lt_trichotomy a b with h1 | h1 | h1
        · exact h1
        · exact absurd h1 hab
        · exact absurd (List.Lex.rel h1) h

/-- `strLe` is the library's `≤` on strings. -/
theorem strLe_iff (x y : String) : strLe x y = true ↔ x ≤ y := by
  rw [strLe, charListLe_iff_not_lt]
  have h1 : (y < x) ↔ y.data < x.data := String.lt_iff_toList_lt
  exact (not_congr h1).symm

/-- Filtering the per-key aggregate rows down to one key yields exactly
that key's row when the key list has no duplicates. -/
theorem filter_map_mkAgg (l : List EnrichedRecord) (k : Option String) :
    ∀ keys : List (Option String), keys.Nodup → k ∈ keys →
      ((keys.map
        (fun k2 => mkAggRow k2 (l.filter (fun r => decide (r.trip_date = k2))))).filter
          (fun row => decide (row.trip_date = k))) =
        [mkAggRow k (l.filter (fun r => decide (r.trip_date = k)))]
  | [], _, hk => absurd hk (List.not_mem_nil k)
  | k0 :: keys, hnd, hk => by
    obtain ⟨hk0, hnd2⟩ := List.nodup_cons.mp hnd
    by_cases he : k0 = k
    · subst he
      rw [List.map_cons, List.filter_cons]
      have hrow : (mkAggRow k0 (l.filter (fun r => decide (r.trip_date = k0)))).trip_date = k0 := rfl
      rw [if_pos (by rw [hrow]; simp)]
      have hrest : ((keys.map
          (fun k2 => mkAggRow k2 (l.filter (fun r => decide (r.trip_date = k2))))).filter
            (fun row => decide (row.trip_date = k0))) = [] := by
        rw [List.filter_eq_nil_iff]
        intro row hrowmem
        obtain ⟨k2, hk2, rfl⟩ := List.mem_map.mp hrowmem
        have : (mkAggRow k2 (l.filter (fun r => decide (r.trip_date = k2)))).trip_date = k2 := rfl
        simp only [this, decide_eq_true_eq]
        intro he2
        exact hk0 (he2 ▸ hk2)
      rw [hrest]
    · rw [List.map_cons, List.filter_cons]
      have hrow : (mkAggRow k0 (l.filter (fun r => decide (r.trip_date = k0)))).trip_date = k0 := rfl
      rw [if_neg (by rw [hrow]; simp [he])]
      have hkmem : k ∈ keys := by
        rcases List.mem_cons.mp hk with h | h
        · exact absurd h.symm he
        · exact h
      exact filter_map_mkAgg l k keys hnd2 hkmem

/-! Claim theorems. -/

/-- C2: after timestamp parsing, a record is present in the Cleaned set
iff it is in the parsed input and its fare is non-null and positive, its
derived trip_minutes is non-null with 0 < trip_minutes < 180, and its
passenger count is non-null and positive; the filter chain is a total
function, so records failing a predicate are dropped without aborting
the run. -/
theorem C2_cleaned_iff_predicates (l : List ParsedRecord) (r : ParsedRecord) :
    r ∈ cleanStage l ↔ r ∈ l ∧
      (∃ f, r.fare_amount = some f ∧ 0 < f) ∧
      (∃ m, r.trip_minutes = some m ∧ 0 < m ∧ m < 180) ∧
      r.passenger_count ≠ none ∧ (∃ p, r.passenger_count = some p ∧ 0 < p) := by
  rw [mem_cleanStage]
  rcases hf : r.fare_amount with _ | f <;> rcases hm : r.trip_minutes with _ | m <;>
    rcases hp : r.passenger_count with _ | p <;>
      simp [filterFare, filterMinPos, filterMinLt, filterPCNotNull, filterPCPos,
        optPos, optLtC, hf, hm, hp, and_assoc]

/-- C9: applying the Cleaner's five predicates in any permutation of
their order produces the same Cleaned result set. -/
theorem C9_filter_order_immaterial (qs : List (ParsedRecord → Bool))
    (h : cleanFilters.Perm qs) (l : List ParsedRecord) :
    applyFilters qs l = cleanStage l := by
  rw [cleanStage, applyFilters_eq_filter, applyFilters_eq_filter]
  apply List.filter_congr
  intro a _
  rw [Bool.eq_iff_iff, List.all_eq_true, List.all_eq_true]
  exact ⟨fun H p hp => H p (h.mem_iff.mp hp), fun H p hp => H p (h.mem_iff.mpr hp)⟩

unseal Rat.inv Rat.add Rat.mul Rat.sub in
/-- Witness for C9: swapping the first two filters on a concrete input. -/
theorem C9_witness :
    applyFilters swappedFilters (scenarioRaw.map withDerived) =
      cleanStage (scenarioRaw.map withDerived) :=
  C9_filter_order_immaterial swappedFilters
    (List.Perm.swap filterMinPos filterFare [filterMinLt, filterPCNotNull, filterPCPos])
    (scenarioRaw.map withDerived)

/-- C7: the Aggregator's row sequence is sorted by trip_date descending
(the comparison on non-null keys is the reversed string order, and nulls
sort last). -/
theorem C7_sorted_descending :
    (∀ l : List EnrichedRecord, List.Sorted aggRowLe (aggStage l)) ∧
    (∀ raw : List RawRecord, List.Sorted aggRowLe (pipelineAgg raw)) ∧
    (∀ x y : String, tripDateDescLe (some x) (some y) = true ↔ y ≤ x) :=
  ⟨fun _ => List.sorted_insertionSort aggRowLe _,
   fun _ => List.sorted_insertionSort aggRowLe _,
   fun x y => strLe_iff y x⟩

unseal Rat.inv Rat.add Rat.mul Rat.sub in
/-- C5: every distinct trip_date of the Enriched set owns exactly one
aggregate row, whose trip_count is the number of records with that date
and whose avg_fare is the mean of their fares; concretely, three
2024-01-01 records with fares 10, 20, 30 yield one row with
trip_count 3 and avg_fare 20. -/
theorem C5_unique_daily_row (l : List EnrichedRecord) (k : Option String)
    (h : k ∈ l.map (fun r => r.trip_date)) :
    ((aggStage l).filter (fun row => decide (row.trip_date = k)) =
        [mkAggRow k (l.filter (fun r => decide (r.trip_date = k)))] ∧
      (mkAggRow k (l.filter (fun r => decide (r.trip_date = k)))).trip_count =
        (l.filter (fun r => decide (r.trip_date = k))).length ∧
      (mkAggRow k (l.filter (fun r => decide (r.trip_date = k)))).avg_fare =
        avgOpt ((l.filter (fun r => decide (r.trip_date = k))).map
          (fun r => r.fare_amount))) ∧
    pipelineAgg scenarioRaw =
      [{ trip_date := some "2024-01-01", avg_fare := some 20,
         avg_duration_minutes := some 30, avg_distance := some 2,
         trip_count := 3, avg_passengers := some 1 }] := by
  refine ⟨⟨?_, rfl, rfl⟩, by decide⟩
  have hnd : (groupKeys l).Nodup := List.nodup_dedup _
  have hk : k ∈ groupKeys l := List.mem_dedup.mpr h
  have hperm := (List.perm_insertionSort aggRowLe
    ((groupKeys l).map
      (fun k2 => mkAggRow k2 (l.filter (fun r => decide (r.trip_date = k2)))))).filter
    (fun row => decide (row.trip_date = k))
  rw [filter_map_mkAgg l k (groupKeys l) hnd hk] at hperm
  exact List.perm_singleton.mp hperm

unseal Rat.inv Rat.add Rat.mul Rat.sub in
/-- Witness for C5 at the concrete scenario input and its date key. -/
theorem C5_witness :
    (aggStage (etlTransform scenarioRaw)).filter
        (fun row => decide (row.trip_date = some "2024-01-01")) =
      [mkAggRow (some "2024-01-01")
        ((etlTransform scenarioRaw).filter
          (fun r => decide (r.trip_date = some "2024-01-01")))] :=
  (C5_unique_daily_row (etlTransform scenarioRaw) (some "2024-01-01") (by decide)).1.1

/-- C3: every cleaned record's trip_minutes is the dropoff-minus-pickup
difference in seconds divided by 60, and the Feature Deriver emits that
same already-computed value rather than recomputing it. -/
theorem C3_trip_minutes_shared (raw : List RawRecord) (r : ParsedRecord)
    (h : r ∈ cleanStage (raw.map withDerived)) :
    ∃ pt dt, r.tpep_pickup_datetime = some pt ∧ r.tpep_dropoff_datetime = some dt ∧
      r.trip_minutes = some (((unixTimestamp dt - unixTimestamp pt : ℤ) : ℚ) / 60) ∧
      (enrichRecord r).trip_minutes = r.trip_minutes := by
  obtain ⟨hin, -, hpos, -, -, -⟩ := (mem_cleanStage _ r).mp h
  obtain ⟨r0, -, rfl⟩ := List.mem_map.mp hin
  have hpos2 : optPos (withDerived r0).trip_minutes = true := hpos
  rcases hp : toTimestampOpt r0.tpep_pickup_datetime with _ | pt
  · exfalso
    rw [show (withDerived r0).trip_minutes = none by simp [withDerived, hp]] at hpos2
    exact Bool.noConfusion hpos2
  · rcases hd : toTimestampOpt r0.tpep_dropoff_datetime with _ | dt
    · exfalso
      rw [show (withDerived r0).trip_minutes = none by simp [withDerived, hp, hd]] at hpos2
      exact Bool.noConfusion hpos2
    · refine ⟨pt, dt, ?_, ?_, ?_, rfl⟩ <;> simp [withDerived, hp, hd]

unseal Rat.inv Rat.add Rat.mul Rat.sub in
/-- Witness for C3 at a concrete cleaned record. -/
theorem C3_witness :
    ∃ pt dt,
      (withDerived (mkRaw "2024-01-01 10:00:00" "2024-01-01 10:30:00" 10 1 1)).tpep_pickup_datetime = some pt ∧
      (withDerived (mkRaw "2024-01-01 10:00:00" "2024-01-01 10:30:00" 10 1 1)).tpep_dropoff_datetime = some dt ∧
      (withDerived (mkRaw "2024-01-01 10:00:00" "2024-01-01 10:30:00" 10 1 1)).trip_minutes =
        some (((unixTimestamp dt - unixTimestamp pt : ℤ) : ℚ) / 60) ∧
      (enrichRecord (withDerived (mkRaw "2024-01-01 10:00:00" "2024-01-01 10:30:00" 10 1 1))).trip_minutes =
        (withDerived (mkRaw "2024-01-01 10:00:00" "2024-01-01 10:30:00" 10 1 1)).trip_minutes :=
  C3_trip_minutes_shared scenarioRaw
    (withDerived (mkRaw "2024-01-01 10:00:00" "2024-01-01 10:30:00" 10 1 1)) (by decide)

/-- C4: every record of the Enriched set has a non-null trip_minutes
strictly between 0 and 180. -/
theorem C4_enriched_duration_bounds (raw : List RawRecord) (r : EnrichedRecord)
    (h : r ∈ etlTransform raw) :
    ∃ m, r.trip_minutes = some m ∧ 0 < m ∧ m < 180 := by
  obtain ⟨c, hc, rfl⟩ := List.mem_map.mp h
  obtain ⟨-, -, hpos, hlt, -, -⟩ := (mem_cleanStage _ c).mp hc
  obtain ⟨m, hm, hm0⟩ := (optPos_iff c.trip_minutes).mp hpos
  obtain ⟨m2, hm2, hmlt⟩ := (optLtC_iff c.trip_minutes 180).mp hlt
  rw [hm] at hm2
  have he : m = m2 := Option.some_inj.mp hm2
  exact ⟨m, hm, hm0, he ▸ hmlt⟩

unseal Rat.inv Rat.add Rat.mul Rat.sub in
/-- Witness for C4 at a concrete enriched record. -/
theorem C4_witness :
    ∃ m,
      (enrichRecord (withDerived (mkRaw "2024-01-01 10:00:00" "2024-01-01 10:30:00" 10 1 1))).trip_minutes = some m ∧
      0 < m ∧ m < 180 :=
  C4_enriched_duration_bounds scenarioRaw
    (enrichRecord (withDerived (mkRaw "2024-01-01 10:00:00" "2024-01-01 10:30:00" 10 1 1)))
    (by decide)

/-- C6: a raw record whose pickup or dropoff timestamp fails to parse
gets a null (not an abort) from parsing, its trip_minutes is null, and
it is absent from every Cleaned set. -/
theorem C6_unparsable_timestamp_dropped (r : RawRecord)
    (h : toTimestampOpt r.tpep_pickup_datetime = none ∨
         toTimestampOpt r.tpep_dropoff_datetime = none) :
    (withDerived r).trip_minutes = none ∧ ∀ l, withDerived r ∉ cleanStage l := by
  have hnone : (withDerived r).trip_minutes = none := by
    rcases h with h | h
    · simp [withDerived, h]
    · rcases hp : toTimestampOpt r.tpep_pickup_datetime with _ | pt <;>
        simp [withDerived, h, hp]
  refine ⟨hnone, fun l hmem => ?_⟩
  obtain ⟨-, -, hpos, -, -, -⟩ := (mem_cleanStage _ _).mp hmem
  have h2 : optPos (withDerived r).trip_minutes = true := hpos
  rw [hnone] at h2
  exact Bool.noConfusion h2

/-- Witness for C6 at a concrete record with an unparsable pickup. -/
theorem C6_witness :
    (toTimestampOpt badPickupRaw.tpep_pickup_datetime = none ∨
      toTimestampOpt badPickupRaw.tpep_dropoff_datetime = none) ∧
    (withDerived badPickupRaw).trip_minutes = none ∧
    withDerived badPickupRaw ∉ cleanStage [withDerived badPickupRaw] :=
  ⟨Or.inl (by decide),
   (C6_unparsable_timestamp_dropped badPickupRaw (Or.inl (by decide))).1,
   (C6_unparsable_timestamp_dropped badPickupRaw (Or.inl (by decide))).2
     [withDerived badPickupRaw]⟩

/-- C8: is_weekend is 1 exactly when the first character of trip_date
(the leading digit of the year) is 6 or 7, so for any pickup year
between 2000 and 2999 it is 0 — it is not a day-of-week computation. -/
theorem C8_weekend_flag_from_year_digit (r : ParsedRecord) (pt : Timestamp)
    (h : r.tpep_pickup_datetime = some pt) :
    ((enrichRecord r).is_weekend = 1 ↔
      (substrSQL (dateFormat pt) 1 1 = "6" ∨ substrSQL (dateFormat pt) 1 1 = "7")) ∧
    (2000 ≤ pt.year → pt.year ≤ 2999 → (enrichRecord r).is_weekend = 0) := by
  have htd : (enrichRecord r).is_weekend = isWeekendFlag (some (dateFormat pt)) := by
    simp [enrichRecord, h]
  constructor
  · rw [htd]
    show (if substrSQL (dateFormat pt) 1 1 = "6" ∨ substrSQL (dateFormat pt) 1 1 = "7"
        then (1 : Int) else 0) = 1 ↔ _
    split
    · rename_i hc
      exact ⟨fun _ => hc, fun _ => rfl⟩
    · rename_i hc
      exact ⟨fun h0 => absurd h0 (by decide), fun hc2 => absurd hc2 hc⟩
  · intro hy1 hy2
    rw [htd]
    have hfirst : substrSQL (dateFormat pt) 1 1 = "2" := by
      have hlt : pt.year < 10000 := by omega
      have hdiv : pt.year / 1000 % 10 = 2 := by omega
      simp only [dateFormat, digits4, if_pos hlt, hdiv]
      rfl
    show (if substrSQL (dateFormat pt) 1 1 = "6" ∨ substrSQL (dateFormat pt) 1 1 = "7"
        then (1 : Int) else 0) = 0
    rw [hfirst]
    decide

/-- Witness for C8 at a concrete 2024 pickup. -/
theorem C8_witness :
    (withDerived (mkRaw "2024-01-01 10:00:00" "2024-01-01 10:30:00" 10 1 1)).tpep_pickup_datetime =
      some ⟨2024, 1, 1, 10, 0, 0⟩ ∧
    (enrichRecord (withDerived (mkRaw "2024-01-01 10:00:00" "2024-01-01 10:30:00" 10 1 1))).is_weekend = 0 :=
  ⟨by decide,
   (C8_weekend_flag_from_year_digit
     (withDerived (mkRaw "2024-01-01 10:00:00" "2024-01-01 10:30:00" 10 1 1))
     ⟨2024, 1, 1, 10, 0, 0⟩ (by decide)).2 (by decide) (by decide)⟩

unseal Rat.inv Rat.add Rat.mul Rat.sub in
/-- C10: none of the five cleaning predicates reads trip_distance, and
on records with null, negative and zero distances (all other predicates
passing) the pipeline keeps all three in trip_count, drops the null from
the avg_distance mean, and produces the negative mean (-4 + 0) / 2 = -2. -/
theorem C10_distance_not_constrained :
    (∀ (p : ParsedRecord) (d : Option ℚ),
      filterFare { p with trip_distance := d } = filterFare p ∧
      filterMinPos { p with trip_distance := d } = filterMinPos p ∧
      filterMinLt { p with trip_distance := d } = filterMinLt p ∧
      filterPCNotNull { p with trip_distance := d } = filterPCNotNull p ∧
      filterPCPos { p with trip_distance := d } = filterPCPos p) ∧
    pipelineAgg distScenario =
      [{ trip_date := some "2024-01-01", avg_fare := some 20,
         avg_duration_minutes := some 30, avg_distance := some (-2),
         trip_count := 3, avg_passengers := some 1 }] :=
  ⟨fun _ _ => ⟨rfl, rfl, rfl, rfl, rfl⟩, by decide⟩

unseal Rat.inv Rat.add Rat.mul Rat.sub in
/-- C1 counterexample: with warehouse-table mode requested and no table
identifier, the run does not fail configuration validation — it succeeds
and writes the aggregates computed from the (read) input in file mode. -/
theorem C1_counterexample :
    runPipeline cfgNoTable scenarioRaw =
      .ok (.parquetWrite "gs://out" (pipelineAgg scenarioRaw)) ∧
    pipelineAgg scenarioRaw ≠ [] :=
  ⟨rfl, by decide⟩

/-- C1 amended: when warehouse-table mode is requested without a table
identifier, the pipeline silently falls back to file mode, writing the
aggregates as partitioned parquet to the output path. -/
theorem C1_amended_silent_fallback (args : Args) (raw : List RawRecord)
    (_h1 : args.output_mode = "bigquery") (h2 : args.bq_table = none) :
    runPipeline args raw = .ok (.parquetWrite args.output_path (pipelineAgg raw)) := by
  simp [runPipeline, h2, pyTruthy]

/-- Witness for the amended C1 at a concrete configuration and input. -/
theorem C1_amended_witness :
    cfgNoTable.output_mode = "bigquery" ∧ cfgNoTable.bq_table = none ∧
    runPipeline cfgNoTable threeDates =
      .ok (.parquetWrite cfgNoTable.output_path (pipelineAgg threeDates)) :=
  ⟨rfl, rfl, C1_amended_silent_fallback cfgNoTable threeDates rfl rfl⟩
